import Mathlib

/-!
Shallow embedding of `src/crimson/net/Socket.{h,cc}` (ceph::net::Socket).

Bytes are modelled as `Nat`.  A seastar `temporary_buffer<char>` (a chunk)
is a `List Nat`; a ceph `bufferlist` is an ordered sequence of chunks,
`List (List Nat)`, whose byte content is its flatten.  Appending a chunk to
a bufferlist (zero-copy ownership transfer in the source) is list append of
one element; `share(0, n)`/`trim_front(n)` on a chunk are `take n`/`drop n`.

The seastar input stream is modelled as the list of chunks it delivers
before end-of-stream; `input_stream::consume` is a fold of the consumer
over that list that stops when the consumer signals `stop_consuming`,
returning the unconsumed suffix (the leftover buffer pushed back in front).

Exceptions during `close()` are modelled explicitly: `Option Exn` is the
outcome of a resource-release step (`none` = clean), and `ceph_abort` is a
distinguished terminal outcome, never a returned error.
-/

/-- A chunk of bytes: seastar `temporary_buffer<char>`. -/
abbrev tmp_buf : Type := List Nat

/-- A ceph `bufferlist`: an ordered, append-only sequence of chunks. -/
abbrev bufferlist : Type := List tmp_buf

/-- `seastar::input_stream<char>::consumption_result_type`:
either keep consuming, or stop and hand a leftover buffer back to the
stream (an empty leftover means done with nothing to give back). -/
inductive consumption_result_type : Type where
  | continue_consuming : consumption_result_type
  | stop_consuming : tmp_buf → consumption_result_type
deriving DecidableEq, Repr

/-- One invocation of `bufferlist_consumer::operator()` from `Socket.cc`:
given the accumulated bufferlist `bl`, the running counter `remaining` and
an incoming chunk `data`, return the updated bufferlist, the updated
counter, and the consumption signal.
  - `remaining >= data.size()`: consume the whole chunk, decrease the
    counter; continue if the counter is still positive, else stop with an
    empty leftover.
  - otherwise, if `remaining > 0`: append the first `remaining` bytes as a
    sub-range share, trim them off the chunk front, zero the counter, and
    stop returning the trimmed chunk.
  - otherwise (`remaining = 0`): stop returning the whole chunk. -/
def bufferlist_consumer (bl : bufferlist) (remaining : Nat) (data : tmp_buf) :
    bufferlist × Nat × consumption_result_type :=
  if data.length ≤ remaining then
    (bl ++ [data], remaining - data.length,
      if 0 < remaining - data.length then
        consumption_result_type.continue_consuming
      else
        consumption_result_type.stop_consuming [])
  else if 0 < remaining then
    (bl ++ [data.take remaining], 0,
      consumption_result_type.stop_consuming (data.drop remaining))
  else
    (bl, remaining, consumption_result_type.stop_consuming data)

/-- `seastar::input_stream::consume` driven with `bufferlist_consumer`:
feed the stream's chunks in order until the consumer stops or the stream
is exhausted.  Returns the final bufferlist, the final counter, and the
unconsumed part of the stream (the leftover buffer, possibly empty, in
front of the undelivered chunks). -/
def consume : bufferlist → Nat → List tmp_buf → bufferlist × Nat × List tmp_buf
  | bl, remaining, [] => (bl, remaining, [])
  | bl, remaining, data :: rest =>
    match bufferlist_consumer bl remaining data with
    | (bl', remaining', consumption_result_type.continue_consuming) =>
      consume bl' remaining' rest
    | (bl', remaining', consumption_result_type.stop_consuming leftover) =>
      (bl', remaining', leftover :: rest)

/-- The error kinds surfaced by `Socket::read` / `Socket::read_exactly`. -/
inductive ReadError : Type where
  | read_eof : ReadError
deriving DecidableEq, Repr

/-- The per-read transient state `r` of the `Socket` (`Socket.h`):
a target buffer and a remaining byte count. -/
structure ReadState : Type where
  buffer : bufferlist
  remaining : Nat
deriving DecidableEq, Repr

/-- `Socket::read(bytes)` from `Socket.cc`, as a function of the input
stream's pending chunks.  `bytes == 0` returns an empty bufferlist at once,
touching neither the per-read state nor the stream.  Otherwise the per-read
state is reset to `{[], bytes}`, the consumer is driven over the stream,
and a nonzero final counter is a short read: `read_eof`.  On success the
assembled bufferlist is moved out to the caller (the moved-from buffer is
left empty).  Returns (result, new per-read state, unconsumed stream). -/
def Socket.read (r : ReadState) (stream : List tmp_buf) (bytes : Nat) :
    Except ReadError bufferlist × ReadState × List tmp_buf :=
  if bytes = 0 then
    (Except.ok [], r, stream)
  else
    match consume [] bytes stream with
    | (bl, rem, tail) =>
      if rem ≠ 0 then
        (Except.error ReadError.read_eof, ⟨bl, rem⟩, tail)
      else
        (Except.ok bl, ⟨[], rem⟩, tail)

/-- `Socket::read_exactly(bytes)` from `Socket.cc`.  `prim` stands for the
underlying `in.read_exactly` primitive of the seastar input stream (an
external boundary): `prim n` is the buffer that primitive yields for a
request of `n` bytes.  `bytes == 0` returns an empty buffer at once without
invoking the primitive; otherwise an empty primitive result is `read_eof`,
and any non-empty result is returned as success. -/
def Socket.read_exactly (prim : Nat → tmp_buf) (bytes : Nat) :
    Except ReadError tmp_buf :=
  if bytes = 0 then
    Except.ok []
  else if prim bytes = [] then
    Except.error ReadError.read_eof
  else
    Except.ok (prim bytes)

/-- The `std::error_code` values distinguished by `close_and_handle_errors`. -/
inductive errc : Type where
  | broken_pipe : errc
  | connection_reset : errc
  | other_code : Nat → errc
deriving DecidableEq, Repr

/-- An exception escaping a resource-release step during `Socket::close`:
either a `std::system_error` carrying an error code, or some other
exception type (which `handle_exception_type<std::system_error>` does not
catch). -/
inductive Exn : Type where
  | sys_error : errc → Exn
  | non_sys : Exn
deriving DecidableEq, Repr

/-- The outcome of one step of the close orchestration: completed normally,
terminated the process via `ceph_abort`, or let an exception propagate. -/
inductive StepResult : Type where
  | ok : StepResult
  | fatal_abort : StepResult
  | raised : Exn → StepResult
deriving DecidableEq, Repr

/-- `close_and_handle_errors(out)` from `Socket.cc`, as a function of the
outcome of `out.close()` (`none` = no exception).  A `std::system_error`
is filtered: `broken_pipe` and `connection_reset` are swallowed, any other
code is logged and `ceph_abort`-ed.  A non-`system_error` exception is not
caught here and propagates. -/
def close_and_handle_errors (out_close : Option Exn) : StepResult :=
  match out_close with
  | none => StepResult.ok
  | some (Exn.sys_error c) =>
    if c ≠ errc.broken_pipe ∧ c ≠ errc.connection_reset then
      StepResult.fatal_abort
    else
      StepResult.ok
  | some Exn.non_sys => StepResult.raised Exn.non_sys

/-- The outcome of `Socket::close()` as seen by the process: either the
returned future completes normally, or the process is terminated by
`ceph_abort`.  No error value is ever returned to the caller. -/
inductive CloseOutcome : Type where
  | completed : CloseOutcome
  | fatal_abort : CloseOutcome
deriving DecidableEq, Repr

/-- `Socket::close()` from `Socket.cc`, as a function of the outcomes of
the two concurrent release steps: `in.close()` (awaited directly inside
`when_all_succeed`) and `close_and_handle_errors(out)`.  If the filtered
output step aborted, the process is gone.  Any exception still escaping the
join — one raised past the filter, or one from `in.close()` — is caught by
the trailing `handle_exception`, logged, and `ceph_abort`-ed. -/
def Socket.close (in_close : Option Exn) (out_close : Option Exn) :
    CloseOutcome :=
  match close_and_handle_errors out_close with
  | StepResult.fatal_abort => CloseOutcome.fatal_abort
  | StepResult.raised _ => CloseOutcome.fatal_abort
  | StepResult.ok =>
    match in_close with
    | none => CloseOutcome.completed
    | some _ => CloseOutcome.fatal_abort

/-- The debug-only lifecycle flags of the `Socket` (`Socket.h`, under
`#ifndef NDEBUG`): `down` is set by `shutdown()`, `closed` by `close()`. -/
structure DebugFlags : Type where
  down : Bool
  closed : Bool
deriving DecidableEq, Repr

/-- The `#ifndef NDEBUG` prologue of `Socket::shutdown`:
`ceph_assert(!down); down = true;`.  `none` is an assertion failure
(fatal in verified builds); otherwise the updated flags are returned. -/
def Socket.shutdown_flag (s : DebugFlags) : Option DebugFlags :=
  if s.down then none else some { s with down := true }

/-- The `#ifndef NDEBUG` prologue of `Socket::close`:
`ceph_assert(!closed); closed = true;`. -/
def Socket.close_flag (s : DebugFlags) : Option DebugFlags :=
  if s.closed then none else some { s with closed := true }

/-- An event on the output stream, for ordering properties of the write
path: a `write` of a packet's bytes, or a `flush`. -/
inductive OutEvent : Type where
  | write : List Nat → OutEvent
  | flush : OutEvent
deriving DecidableEq, Repr

/-- `Socket::write(buf)` (`Socket.h`): hand the packet to `out.write`,
appending a write event to the output stream's event trace. -/
def Socket.write (trace : List OutEvent) (p : List Nat) : List OutEvent :=
  trace ++ [OutEvent.write p]

/-- `Socket::flush()` (`Socket.h`): `out.flush()`, appending a flush event
to the trace; the returned future completes when the flush has handed the
previously written bytes to the transport. -/
def Socket.flush (trace : List OutEvent) : List OutEvent :=
  trace ++ [OutEvent.flush]

/-- `Socket::write_flush(buf)` (`Socket.h`):
`out.write(std::move(buf)).then([this] \x7b return out.flush(); \x7d)` — the
flush is chained strictly after the write's completion, and the returned
future is the flush's future. -/
def Socket.write_flush (trace : List OutEvent) (p : List Nat) :
    List OutEvent :=
  Socket.flush (Socket.write trace p)

/-- A low-level `seastar::socket_address` as handed to `accept`'s
continuation: an address family tag and raw address bytes, both chosen by
how the connecting side encoded its address. -/
structure sockaddr_model : Type where
  family : Nat
  data : List Nat
deriving DecidableEq, Repr

/-- The address-family tags of `entity_addr_t` (`msg/msg_types.h`). -/
inductive addr_type : Type where
  | TYPE_NONE : addr_type
  | TYPE_LEGACY : addr_type
  | TYPE_MSGR2 : addr_type
  | TYPE_ANY : addr_type
deriving DecidableEq, Repr

/-- A messenger-layer peer address: a normalized type tag plus the
low-level address contents. -/
structure entity_addr_t : Type where
  type : addr_type
  addr : sockaddr_model
deriving DecidableEq, Repr

/-- Modelled from the spec: `entity_addr_t::set_sockaddr` lives in
`msg/msg_types.h`, which is not part of the sources here; per §3 it
populates the value object from the accepted connection's low-level
address, leaving the tag to be normalized separately. -/
def entity_addr_t.set_sockaddr (a : entity_addr_t) (p : sockaddr_model) :
    entity_addr_t :=
  { a with addr := p }

/-- Modelled from the spec: `entity_addr_t::set_type` lives in
`msg/msg_types.h`, not in the sources here; per §6 it sets the settable
address-family tag of the address value. -/
def entity_addr_t.set_type (a : entity_addr_t) (t : addr_type) :
    entity_addr_t :=
  { a with type := t }

/-- The peer-address computation inside `Socket::accept` (`Socket.h`):
default-construct an `entity_addr_t`, `set_sockaddr` from the accepted
connection's low-level address, then `set_type(entity_addr_t::TYPE_ANY)`. -/
def Socket.accept_peer_addr (paddr : sockaddr_model) : entity_addr_t :=
  ((⟨addr_type.TYPE_NONE, ⟨0, []⟩⟩ : entity_addr_t).set_sockaddr
      paddr).set_type addr_type.TYPE_ANY

/-! ## Helper lemmas about the assembly drive -/

/-- When the counter is positive and at most the total byte count of the
stream, the drive zeroes the counter, appends exactly the first `remaining`
bytes after whatever `bl` already held, and leaves exactly the rest of the
bytes as the unconsumed tail. -/
theorem consume_spec (chunks : List tmp_buf) :
    ∀ (bl : bufferlist) (remaining : Nat), 0 < remaining →
    remaining ≤ chunks.flatten.length →
    (consume bl remaining chunks).1.flatten
        = bl.flatten ++ chunks.flatten.take remaining ∧
    (consume bl remaining chunks).2.1 = 0 ∧
    (consume bl remaining chunks).2.2.flatten
        = chunks.flatten.drop remaining := by
  induction chunks with
  | nil =>
    intro bl remaining hpos hle
    simp at hle
    omega
  | cons c cs ih =>
    intro bl remaining hpos hle
    by_cases hc : c.length ≤ remaining
    · by_cases hr : 0 < remaining - c.length
      · have hstep : consume bl remaining (c :: cs)
            = consume (bl ++ [c]) (remaining - c.length) cs := by
          simp [consume, bufferlist_consumer, hc, hr]
        have hle' : remaining - c.length ≤ cs.flatten.length := by
          simp only [List.flatten_cons, List.length_append] at hle
          omega
        obtain ⟨h1, h2, h3⟩ := ih (bl ++ [c]) (remaining - c.length) hr hle'
        rw [hstep]
        refine ⟨?_, h2, ?_⟩
        · rw [h1]
          simp only [List.flatten_append, List.flatten_cons,
            List.flatten_nil, List.append_nil, List.append_assoc]
          congr 1
          rw [List.take_append_eq_append_take,
            List.take_of_length_le hc]
        · rw [h3]
          simp only [List.flatten_cons]
          rw [List.drop_append_eq_append_drop,
            List.drop_eq_nil_of_le hc]
          simp
      · have hceq : remaining = c.length := by omega
        have hstep : consume bl remaining (c :: cs)
            = (bl ++ [c], remaining - c.length, [] :: cs) := by
          simp [consume, bufferlist_consumer, hc, hr]
        rw [hstep]
        refine ⟨?_, by show remaining - c.length = 0; omega, ?_⟩
        · simp only [List.flatten_append, List.flatten_cons,
            List.flatten_nil, List.append_nil]
          congr 1
          rw [List.take_append_eq_append_take,
            List.take_of_length_le hc, hceq]
          simp
        · show ([] :: cs).flatten = List.drop remaining (c :: cs).flatten
          simp only [List.flatten_cons, List.flatten_nil,
            List.nil_append]
          rw [List.drop_append_eq_append_drop,
            List.drop_eq_nil_of_le hc, hceq]
          simp
    · have hlt : remaining < c.length := by omega
      have hstep : consume bl remaining (c :: cs)
          = (bl ++ [c.take remaining], 0, (c.drop remaining) :: cs) := by
        simp [consume, bufferlist_consumer, hc, hpos]
      rw [hstep]
      refine ⟨?_, rfl, ?_⟩
      · simp only [List.flatten_append, List.flatten_cons,
          List.flatten_nil, List.append_nil]
        congr 1
        rw [List.take_append_eq_append_take]
        have : remaining - c.length = 0 := by omega
        rw [this]
        simp
      · simp only [List.flatten_cons]
        rw [List.drop_append_eq_append_drop]
        have : remaining - c.length = 0 := by omega
        rw [this]
        simp

/-- When the stream holds fewer bytes than the counter asks for, the drive
consumes every chunk whole, leaves the shortfall in the counter, and
exhausts the stream. -/
theorem consume_short (chunks : List tmp_buf) :
    ∀ (bl : bufferlist) (remaining : Nat),
    chunks.flatten.length < remaining →
    consume bl remaining chunks
      = (bl ++ chunks, remaining - chunks.flatten.length, []) := by
  induction chunks with
  | nil =>
    intro bl remaining _
    simp [consume]
  | cons c cs ih =>
    intro bl remaining hlt
    simp only [List.flatten_cons, List.length_append] at hlt
    have hc : c.length ≤ remaining := by omega
    have hr : 0 < remaining - c.length := by omega
    have hstep : consume bl remaining (c :: cs)
        = consume (bl ++ [c]) (remaining - c.length) cs := by
      simp [consume, bufferlist_consumer, hc, hr]
    rw [hstep, ih (bl ++ [c]) (remaining - c.length) (by omega)]
    simp only [List.flatten_cons, List.length_append, List.append_assoc,
      List.singleton_append]
    rw [Nat.sub_sub]

/-- Unfolding of `Socket.read` for a positive request, in terms of the
assembly drive. -/
theorem Socket.read_eq (r : ReadState) (stream : List tmp_buf) (bytes : Nat)
    (h : bytes ≠ 0) :
    Socket.read r stream bytes =
      if (consume [] bytes stream).2.1 ≠ 0 then
        (Except.error ReadError.read_eof,
         ⟨(consume [] bytes stream).1, (consume [] bytes stream).2.1⟩,
         (consume [] bytes stream).2.2)
      else
        (Except.ok (consume [] bytes stream).1,
         ⟨[], (consume [] bytes stream).2.1⟩,
         (consume [] bytes stream).2.2) := by
  simp only [Socket.read, if_neg h]

/-! ## Claim theorems -/

/-- C1: for every byte sequence and every target count `remaining` with
`0 < remaining ≤ length`, and for every partition of the sequence into
chunks, driving the chunked-assembly consumer over the chunks appends
exactly the first `remaining` bytes to the target container, leaves the
counter at 0, and leaves exactly the last `length - remaining` bytes as the
unconsumed tail — as bytes, independent of the chunking, since the result
depends only on the flattened sequence. -/
theorem C1_assembly_partition_independent (s : List Nat) (remaining : Nat)
    (chunks : List tmp_buf) (hpart : chunks.flatten = s)
    (hpos : 0 < remaining) (hle : remaining ≤ s.length) :
    (consume [] remaining chunks).1.flatten = s.take remaining ∧
    (consume [] remaining chunks).2.1 = 0 ∧
    (consume [] remaining chunks).2.2.flatten = s.drop remaining := by
  subst hpart
  obtain ⟨h1, h2, h3⟩ := consume_spec chunks [] remaining hpos hle
  exact ⟨by simpa using h1, h2, h3⟩

theorem C1_witness :
    (consume [] 2 [[1], [2, 3]]).1.flatten = List.take 2 [1, 2, 3] ∧
    (consume [] 2 [[1], [2, 3]]).2.1 = 0 ∧
    (consume [] 2 [[1], [2, 3]]).2.2.flatten = List.drop 2 [1, 2, 3] :=
  C1_assembly_partition_independent [1, 2, 3] 2 [[1], [2, 3]]
    (by decide) (by decide) (by decide)

/-- C2: if the stream delivers exactly `n > 0` bytes and then ends,
`read(n)` succeeds with all `n` delivered bytes while `read(n + 1)` fails
with `read_eof`; in general `read(m)` for `m > 0` fails with `read_eof`
exactly when the drive leaves a nonzero counter. -/
theorem C2_read_eof_boundary (stream : List tmp_buf) (n : Nat)
    (hn : 0 < n) (hlen : stream.flatten.length = n) (r : ReadState) :
    (∃ bl, (Socket.read r stream n).1 = Except.ok bl ∧
      bl.flatten = stream.flatten) ∧
    (Socket.read r stream (n + 1)).1 = Except.error ReadError.read_eof ∧
    (∀ m, 0 < m →
      ((Socket.read r stream m).1 = Except.error ReadError.read_eof ↔
        (consume [] m stream).2.1 ≠ 0)) := by
  have hne : n ≠ 0 := by omega
  obtain ⟨h1, h2, h3⟩ := consume_spec stream [] n hn (le_of_eq hlen.symm)
  refine ⟨⟨(consume [] n stream).1, ?_, ?_⟩, ?_, ?_⟩
  · rw [Socket.read_eq r stream n hne, if_neg (by simp [h2])]
  · rw [h1]
    simp [List.take_of_length_le (le_of_eq hlen)]
  · have hshort := consume_short stream [] (n + 1) (by omega)
    rw [Socket.read_eq r stream (n + 1) (by omega),
      if_pos (by rw [hshort]; show n + 1 - stream.flatten.length ≠ 0; omega)]
  · intro m hm
    rw [Socket.read_eq r stream m (by omega)]
    by_cases hrem : (consume [] m stream).2.1 ≠ 0
    · simp [if_pos hrem, hrem]
    · simp [if_neg hrem, hrem]

theorem C2_witness :
    (Socket.read ⟨[], 0⟩ [[4, 5]] 3).1 = Except.error ReadError.read_eof :=
  (C2_read_eof_boundary [[4, 5]] 2 (by decide) (by decide) ⟨[], 0⟩).2.1

/-- C3: during `close()`, a `broken_pipe` or `connection_reset` from the
output release is swallowed and `close()` completes normally; any other
exception from the output release, any exception from the input release,
and any exception escaping to the join's handler is fatal (the process is
aborted); in every case the caller receives either normal completion or
process termination, never an error value. -/
theorem C3_close_error_policy (in_close out_close : Option Exn) :
    ((out_close = some (Exn.sys_error errc.broken_pipe) ∨
      out_close = some (Exn.sys_error errc.connection_reset)) →
        close_and_handle_errors out_close = StepResult.ok ∧
        (in_close = none →
          Socket.close in_close out_close = CloseOutcome.completed)) ∧
    (∀ c, c ≠ errc.broken_pipe → c ≠ errc.connection_reset →
      out_close = some (Exn.sys_error c) →
        Socket.close in_close out_close = CloseOutcome.fatal_abort) ∧
    (out_close = some Exn.non_sys →
      Socket.close in_close out_close = CloseOutcome.fatal_abort) ∧
    (∀ e, in_close = some e →
      Socket.close in_close out_close = CloseOutcome.fatal_abort) ∧
    (Socket.close in_close out_close = CloseOutcome.completed ∨
      Socket.close in_close out_close = CloseOutcome.fatal_abort) := by
  refine ⟨?_, ?_, ?_, ?_, ?_⟩
  · rintro (rfl | rfl) <;>
      exact ⟨by simp [close_and_handle_errors],
        fun h => by simp [Socket.close, close_and_handle_errors, h]⟩
  · rintro c h1 h2 rfl
    simp [Socket.close, close_and_handle_errors, h1, h2]
  · rintro rfl
    simp [Socket.close, close_and_handle_errors]
  · rintro e rfl
    rcases out_close with _ | ⟨c⟩ | _
    · simp [Socket.close, close_and_handle_errors]
    · by_cases hb : c = errc.broken_pipe
      · simp [Socket.close, close_and_handle_errors, hb]
      · by_cases hr : c = errc.connection_reset
        · simp [Socket.close, close_and_handle_errors, hb, hr]
        · simp [Socket.close, close_and_handle_errors, hb, hr]
    · simp [Socket.close, close_and_handle_errors]
  · rcases hfin : Socket.close in_close out_close with _ | _
    · exact Or.inl rfl
    · exact Or.inr rfl

theorem C3_witness :
    Socket.close none (some (Exn.sys_error errc.connection_reset))
      = CloseOutcome.completed :=
  ((C3_close_error_policy none
      (some (Exn.sys_error errc.connection_reset))).1 (Or.inr rfl)).2 rfl

/-- C4: one consumer step with a positive counter.  A chunk no larger than
the counter is appended whole and the counter drops by its size, signalling
continue while the counter stays positive and a no-leftover stop when it
reaches 0; a larger chunk contributes exactly its first `remaining` bytes,
the counter becomes 0, and the stop signal carries the chunk's tail. -/
theorem C4_consumer_step (bl : bufferlist) (remaining : Nat)
    (data : tmp_buf) (hpos : 0 < remaining) :
    (data.length ≤ remaining →
      (bufferlist_consumer bl remaining data).1 = bl ++ [data] ∧
      (bufferlist_consumer bl remaining data).2.1
          = remaining - data.length ∧
      (0 < remaining - data.length →
        (bufferlist_consumer bl remaining data).2.2
          = consumption_result_type.continue_consuming) ∧
      (remaining - data.length = 0 →
        (bufferlist_consumer bl remaining data).2.2
          = consumption_result_type.stop_consuming [])) ∧
    (remaining < data.length →
      (bufferlist_consumer bl remaining data).1
          = bl ++ [data.take remaining] ∧
      (data.take remaining).length = remaining ∧
      (bufferlist_consumer bl remaining data).2.1 = 0 ∧
      (bufferlist_consumer bl remaining data).2.2
          = consumption_result_type.stop_consuming (data.drop remaining) ∧
      data.take remaining ++ data.drop remaining = data) := by
  constructor
  · intro h
    refine ⟨by simp [bufferlist_consumer, h], by simp [bufferlist_consumer, h], ?_, ?_⟩
    · intro hr
      simp [bufferlist_consumer, h, hr]
    · intro hr
      simp [bufferlist_consumer, h, hr]
  · intro h
    have hnle : ¬ data.length ≤ remaining := by omega
    refine ⟨by simp [bufferlist_consumer, hnle, hpos], ?_,
      by simp [bufferlist_consumer, hnle, hpos],
      by simp [bufferlist_consumer, hnle, hpos],
      List.take_append_drop remaining data⟩
    simp [List.length_take]
    omega

theorem C4_witness :
    (bufferlist_consumer [] 2 [7]).1 = [[7]] ∧
    (bufferlist_consumer [] 2 [7]).2.1 = 1 ∧
    (bufferlist_consumer [] 2 [7]).2.2
      = consumption_result_type.continue_consuming :=
  ⟨((C4_consumer_step [] 2 [7] (by decide)).1 (by decide)).1,
   ((C4_consumer_step [] 2 [7] (by decide)).1 (by decide)).2.1,
   ((C4_consumer_step [] 2 [7] (by decide)).1 (by decide)).2.2.1 (by decide)⟩

/-- C5: `read(0)` and `read_exactly(0)` succeed immediately with an empty
result for every stream state, leaving the per-read state and the stream
untouched and never invoking the underlying primitive. -/
theorem C5_zero_read (r : ReadState) (stream : List tmp_buf)
    (prim : Nat → tmp_buf) :
    Socket.read r stream 0 = (Except.ok [], r, stream) ∧
    Socket.read_exactly prim 0 = Except.ok [] :=
  ⟨rfl, rfl⟩

/-- C6: for `n > 0`, if the underlying exact-count primitive yields an
empty buffer, `read_exactly(n)` fails with `read_eof`. -/
theorem C6_read_exactly_eof (prim : Nat → tmp_buf) (n : Nat)
    (hn : 0 < n) (hempty : prim n = []) :
    Socket.read_exactly prim n = Except.error ReadError.read_eof := by
  have hne : n ≠ 0 := by omega
  simp [Socket.read_exactly, hne, hempty]

theorem C6_witness :
    Socket.read_exactly (fun _ => []) 1 = Except.error ReadError.read_eof :=
  C6_read_exactly_eof (fun _ => []) 1 (by decide) rfl

/-- C7: `write_flush(p)` is exactly the write of `p` chained strictly
before a flush: its event trace is the prior trace, then the write of `p`,
then the flush — nothing interleaves, and the operation's completion is the
flush's completion (the flush event is last). -/
theorem C7_write_flush_ordered (trace : List OutEvent) (p : List Nat) :
    Socket.write_flush trace p = Socket.flush (Socket.write trace p) ∧
    Socket.write_flush trace p
      = trace ++ [OutEvent.write p, OutEvent.flush] := by
  exact ⟨rfl, by simp [Socket.write_flush, Socket.flush, Socket.write]⟩

/-- C8: in debug builds each lifecycle flag is settable at most once: the
first `shutdown()` sets `down` and a second one fails the assertion, and
the first `close()` sets `closed` and a second one fails the assertion. -/
theorem C8_lifecycle_once (s : DebugFlags) (hd : s.down = false)
    (hc : s.closed = false) :
    Socket.shutdown_flag s = some { s with down := true } ∧
    Socket.shutdown_flag { s with down := true } = none ∧
    Socket.close_flag s = some { s with closed := true } ∧
    Socket.close_flag { s with closed := true } = none := by
  refine ⟨?_, ?_, ?_, ?_⟩ <;>
    simp [Socket.shutdown_flag, Socket.close_flag, hd, hc]

theorem C8_witness :
    Socket.shutdown_flag ⟨false, false⟩ = some ⟨true, false⟩ ∧
    Socket.shutdown_flag ⟨true, false⟩ = none ∧
    Socket.close_flag ⟨false, false⟩ = some ⟨false, true⟩ ∧
    Socket.close_flag ⟨false, true⟩ = none :=
  C8_lifecycle_once ⟨false, false⟩ rfl rfl

/-- C9: the Peer Address produced by `accept` carries the single normalized
tag `TYPE_ANY`, the same fixed value whatever low-level address the
connecting side presented. -/
theorem C9_accept_type_any (p q : sockaddr_model) :
    (Socket.accept_peer_addr p).type = addr_type.TYPE_ANY ∧
    (Socket.accept_peer_addr p).type = (Socket.accept_peer_addr q).type :=
  ⟨rfl, rfl⟩

/-- C10: for `n > 0`, `read_exactly(n)` fails with `read_eof` exactly when
the primitive's result is empty; any non-empty result — in particular one
shorter than `n` bytes — is returned as success. -/
theorem C10_short_nonempty_success (prim : Nat → tmp_buf) (n : Nat)
    (hn : 0 < n) :
    (Socket.read_exactly prim n = Except.error ReadError.read_eof ↔
      prim n = []) ∧
    (prim n ≠ [] → Socket.read_exactly prim n = Except.ok (prim n)) := by
  have hne : n ≠ 0 := by omega
  constructor
  · constructor
    · intro h
      by_contra hcon
      simp [Socket.read_exactly, hne, hcon] at h
    · intro h
      simp [Socket.read_exactly, hne, h]
  · intro h
    simp [Socket.read_exactly, hne, h]

theorem C10_witness :
    Socket.read_exactly (fun _ => [5]) 2 = Except.ok [5] :=
  (C10_short_nonempty_success (fun _ => [5]) 2 (by decide)).2 (by simp)
